import Mathlib

/-!
Shallow embedding of the huequitas-backend restaurant-review application
(Express + Mongoose services) and proofs about its review-aggregation,
like-toggle, chat-room and password-reset logic.

Conventions of the embedding:
* JavaScript values that may be `undefined`/`null` are modelled with
  `Option` (collapsing `undefined` and `null` when the code treats them
  identically) or with `JsOpt` when the code distinguishes `undefined`
  from `null` (as `PUT /reviews` does for `image`).
* MongoDB collections are lists of documents; `Model.findById` is
  `List.find?` on the id field, `doc.save()` of a fetched document
  replaces the first document with that id, `findByIdAndDelete` removes
  the first document with that id, and `deleteMany` filters.
* JavaScript numbers are embedded as exact values (`Int`, `Nat`, `ℚ`).
  `toFixed2 : ℚ → ℚ` is the round-to-2-decimals function specified for
  `Number.prototype.toFixed` (nearest `n/100`, the larger `n` on ties).
  `recomputedRating` applies it to the exact rational mean (the
  idealization under which the aggregate invariant is stated), while
  `recomputedRatingFP` applies it to `float64Nearest` of the mean — the
  IEEE-754 binary64 quotient the program actually divides to — which can
  round an exact decimal tie downward.
* Fallible driver calls (`like.save()` racing the unique index) take the
  outcome as an `Except` argument; `error.code` is the `Nat` payload.
-/

namespace Huequitas

/-- A JavaScript value that may be `undefined`, `null`, or a value. -/
inductive JsOpt (α : Type) where
  | undef : JsOpt α
  | null : JsOpt α
  | val : α → JsOpt α
deriving DecidableEq, Repr

/-- A JavaScript string-or-missing value is falsy when it is absent or empty. -/
def falsyStr : Option String → Bool
  | none => true
  | some s => s == ""

/-! ## Validators (`core-service/utils/validators.js`) -/

/-- JS `\s` whitespace, restricted to the characters that occur in the
embedding's strings. -/
def jsWhitespace (c : Char) : Bool :=
  c == ' ' || c == '\t' || c == '\n' || c == '\r'

/-- `String.prototype.trim`: strip leading and trailing whitespace. -/
def jsTrim (s : String) : String :=
  String.mk (((s.toList.dropWhile jsWhitespace).reverse.dropWhile
    jsWhitespace).reverse)

def MAX_COMMENT_LENGTH : Nat := 250

def MAX_IMAGE_SIZE_BYTES : Nat := 5 * 1024 * 1024

def ALLOWED_IMAGE_FORMATS : List String :=
  ["image/jpeg", "image/jpg", "image/png", "image/gif"]

/-- `validateRating`: the rating must be present, nonzero (JS falsiness of `0`),
an integer, and between 1 and 5.  Ratings are embedded as `Option Int`
(an absent field or an integer JS number). -/
def validateRating : Option Int → Bool
  | none => false
  | some n => n != 0 && decide (1 ≤ n) && decide (n ≤ 5)

/-- `validateReviewComment`: a falsy comment is accepted; otherwise the
trimmed length must not exceed `MAX_COMMENT_LENGTH`. -/
def validateReviewComment (comment : Option String) : Bool :=
  match comment with
  | none => true
  | some s => if s == "" then true else decide ((jsTrim s).length ≤ MAX_COMMENT_LENGTH)

def isAsciiAlphaNum (c : Char) : Bool :=
  (decide ('a' ≤ c) && decide (c ≤ 'z')) ||
  (decide ('A' ≤ c) && decide (c ≤ 'Z')) ||
  (decide ('0' ≤ c) && decide (c ≤ '9'))

def isMimeTailChar (c : Char) : Bool :=
  isAsciiAlphaNum c || c == '-' || c == '.' || c == '+'

/-- Parse the regex fragment `([a-zA-Z0-9]+\/[a-zA-Z0-9-.+]+)` greedily at the
head of a character list. -/
def parseMimeAt (cs : List Char) : Option String :=
  let p1 := cs.takeWhile isAsciiAlphaNum
  match cs.drop p1.length with
  | '/' :: rest =>
    let p2 := rest.takeWhile isMimeTailChar
    if p1.isEmpty || p2.isEmpty then none
    else some (String.mk (p1 ++ '/' :: p2))
  | _ => none

/-- Try to match `data:` followed by a mime type at the head of the list. -/
def parseDataMime : List Char → Option String
  | 'd' :: 'a' :: 't' :: 'a' :: ':' :: rest => parseMimeAt rest
  | _ => none

/-- Leftmost match of the regex `data:([a-zA-Z0-9]+\/[a-zA-Z0-9-.+]+)`. -/
def findMime : List Char → Option String
  | [] => none
  | c :: cs =>
    match parseDataMime (c :: cs) with
    | some m => some m
    | none => findMime cs

/-- Substring test, modelling `String.prototype.includes`. -/
def containsChars (pat : List Char) : List Char → Bool
  | [] => pat.isEmpty
  | c :: cs => pat.isPrefixOf (c :: cs) || containsChars pat cs

/-- `validateImageFile`: an absent image is accepted; a string must contain
`data:image`, carry an allowed mime type, and its base64 size estimate
`length * 3 / 4` must not exceed 5MB (the size comparison is exact because
the JS division by 4 is exact in binary floating point at these magnitudes). -/
def validateImageFile (base64String : JsOpt String) : Bool :=
  match base64String with
  | .undef => true
  | .null => true
  | .val s =>
    if !(containsChars "data:image".toList s.toList) then false
    else
      match findMime s.toList with
      | none => false
      | some mime =>
        if !(ALLOWED_IMAGE_FORMATS.contains mime) then false
        else decide (3 * s.length ≤ 4 * MAX_IMAGE_SIZE_BYTES)

def isHexDigit (c : Char) : Bool :=
  (decide ('0' ≤ c) && decide (c ≤ '9')) ||
  (decide ('a' ≤ c) && decide (c ≤ 'f')) ||
  (decide ('A' ≤ c) && decide (c ≤ 'F'))

/-- `validateMongoId`: the id must be truthy and match `^[0-9a-fA-F]{24}$`. -/
def validateMongoId : Option String → Bool
  | none => false
  | some s => s != "" && s.length == 24 && s.toList.all isHexDigit

/-- `validateRequired` (string case): the value must be truthy with a
nonempty trim. -/
def validateRequired : Option String → Bool
  | none => false
  | some s => s != "" && jsTrim s != ""

/-! ## Data model (`core-service/models`) -/

/-- A `Review` document.  Display-only schema fields not read by any handler
are elided; `comment` keeps the absent/empty distinction and `image` is
`none` when absent or null. -/
structure Review where
  id : String
  restaurantId : String
  userId : String
  userName : String
  rating : Int
  comment : Option String
  image : Option String
  createdAt : Nat
  updatedAt : Nat
deriving DecidableEq, Repr

/-- A `Restaurant` document (fields read or written by the review/like
handlers; display-only fields are elided). -/
structure Restaurant where
  id : String
  name : String
  rating : ℚ
  totalRatings : Nat
deriving DecidableEq, Repr

/-- A `Like` document; the schema declares a unique index on
`(restaurantId, userId)`. -/
structure Like where
  id : String
  restaurantId : String
  userId : String
  createdAt : Nat
deriving DecidableEq, Repr

/-- The core service's MongoDB state. -/
structure CoreState where
  restaurants : List Restaurant
  reviews : List Review
  likes : List Like
deriving DecidableEq, Repr

/-- The authenticated user attached to a request by the auth middleware. -/
structure AuthUser where
  userId : String
  name : String
deriving DecidableEq, Repr

/-- Responses emitted by the core-service handlers. -/
inductive CoreRes where
  | badRequest : String → CoreRes
  | notFound : String → CoreRes
  | forbidden : String → CoreRes
  | created : Review → CoreRes
  | okReview : Review → CoreRes
  | okMsg : String → CoreRes
  | okLiked : String → Bool → CoreRes
  | serverError : CoreRes
deriving DecidableEq, Repr

/-- HTTP status code of a core-service response. -/
def statusOf : CoreRes → Nat
  | .badRequest _ => 400
  | .notFound _ => 404
  | .forbidden _ => 403
  | .created _ => 201
  | .okReview _ => 200
  | .okMsg _ => 200
  | .okLiked _ _ => 200
  | .serverError => 500

/-- The `liked` flag of a like-toggle response, when it is one. -/
def likedFlag : CoreRes → Option Bool
  | .okLiked _ b => some b
  | _ => none

/-! ## Mongo collection primitives -/

/-- `doc.save()` on a fetched restaurant: replace the first document with
this document's id. -/
def saveRestaurant (doc : Restaurant) : List Restaurant → List Restaurant
  | [] => []
  | x :: xs => if x.id == doc.id then doc :: xs else x :: saveRestaurant doc xs

/-- `doc.save()` on a fetched review. -/
def saveReviewDoc (doc : Review) : List Review → List Review
  | [] => []
  | x :: xs => if x.id == doc.id then doc :: xs else x :: saveReviewDoc doc xs

/-- `Review.findByIdAndDelete`: remove the first review with the given id. -/
def deleteReviewById (i : String) : List Review → List Review
  | [] => []
  | x :: xs => if x.id == i then xs else x :: deleteReviewById i xs

/-- `Like.findByIdAndDelete`: remove the first like with the given id. -/
def deleteLikeById (i : String) : List Like → List Like
  | [] => []
  | x :: xs => if x.id == i then xs else x :: deleteLikeById i xs

/-- `Review.find({restaurantId})`: all reviews referencing a restaurant. -/
def reviewsFor (s : CoreState) (rid : String) : List Review :=
  s.reviews.filter (fun r => r.restaurantId == rid)

/-! ## Aggregate-rating recompute -/

/-- `reviews.reduce((sum, r) => sum + r.rating, 0)`. -/
def sumRatings (l : List Review) : Int :=
  (l.map (fun r => r.rating)).sum

/-- The exact mean of the ratings of a review list. -/
def avgRating (l : List Review) : ℚ :=
  (sumRatings l : ℚ) / (l.length : ℚ)

/-- `parseFloat(x.toFixed(2))`: round to the nearest multiple of `1/100`,
choosing the larger candidate on ties (the `toFixed` specification picks
the larger `n`), embedded over exact rationals. -/
def toFixed2 (q : ℚ) : ℚ :=
  ((⌊q * 100 + 1 / 2⌋ : ℤ) : ℚ) / 100

/-- The aggregate rating each review handler stores after refetching the
restaurant's reviews. -/
def recomputedRating (l : List Review) : ℚ :=
  toFixed2 (avgRating l)

/-- Like-state of a (restaurant, user) pair, as reported by
`GET /likes/:restaurantId` (`{liked: !!like}`). -/
def isLiked (s : CoreState) (rid uid : String) : Bool :=
  s.likes.any (fun l => l.restaurantId == rid && l.userId == uid)

/-! ## `POST /like` (`core-service/index.js`) -/

/-- The `POST /like` handler.  `freshId` is the ObjectId the driver would
assign to a new like, `now` its `createdAt`, and `saveResult` the outcome of
`like.save()` (the unique index on `(restaurantId, userId)` can make it fail
with `error.code = 11000`, which the catch block turns into a success). -/
def postLike (s : CoreState) (u : AuthUser) (restaurantId : Option String)
    (freshId : String) (now : Nat) (saveResult : Except Nat Unit) :
    CoreState × CoreRes :=
  match restaurantId with
  | none => (s, .badRequest "Restaurant ID is required")
  | some rid =>
    if rid == "" then (s, .badRequest "Restaurant ID is required")
    else
      match s.restaurants.find? (fun r => r.id == rid) with
      | none => (s, .notFound "Restaurant not found")
      | some _ =>
        match s.likes.find? (fun l => l.restaurantId == rid && l.userId == u.userId) with
        | some existingLike =>
          ({ s with likes := deleteLikeById existingLike.id s.likes },
            .okLiked "Restaurant unliked" false)
        | none =>
          match saveResult with
          | .ok _ =>
            ({ s with likes := s.likes ++ [⟨freshId, rid, u.userId, now⟩] },
              .okLiked "Restaurant liked" true)
          | .error code =>
            if code == 11000 then (s, .okLiked "Restaurant already liked" true)
            else (s, .serverError)

/-! ## Review lifecycle (`core-service/index.js`) -/

/-- Body of a `POST /reviews` request. -/
structure CreateReviewReq where
  restaurantId : Option String
  rating : Option Int
  comment : Option String
  image : JsOpt String
deriving DecidableEq, Repr

/-- Body of a `PUT /reviews/:reviewId` request. -/
structure UpdateReviewReq where
  rating : Option Int
  comment : Option String
  image : JsOpt String
deriving DecidableEq, Repr

/-- The `POST /reviews` handler: validate, check the restaurant exists,
persist the review, then recompute the restaurant's `rating` and
`totalRatings` from the full refetched review set.  `freshId` is the
ObjectId assigned to the new review and `now` its timestamp. -/
def createReview (s : CoreState) (u : AuthUser) (req : CreateReviewReq)
    (freshId : String) (now : Nat) : CoreState × CoreRes :=
  if !(validateMongoId req.restaurantId) then
    (s, .badRequest "ID de restaurante inválido")
  else if !(validateRating req.rating) then
    (s, .badRequest "La calificación debe ser un número entre 1 y 5")
  else if !(validateReviewComment req.comment) then
    (s, .badRequest "El comentario no puede exceder 250 caracteres")
  else if !(validateImageFile req.image) then
    (s, .badRequest "La imagen no tiene un formato válido")
  else
    let rid := req.restaurantId.getD ""
    match s.restaurants.find? (fun r => r.id == rid) with
    | none => (s, .notFound "Restaurant not found")
    | some restaurant =>
      let review : Review :=
        { id := freshId, restaurantId := rid, userId := u.userId,
          userName := u.name, rating := req.rating.getD 0,
          comment := req.comment,
          image := match req.image with
            | .undef => none
            | .null => none
            | .val img => some img,
          createdAt := now, updatedAt := now }
      let s1 : CoreState := { s with reviews := s.reviews ++ [review] }
      let revs := reviewsFor s1 rid
      let restaurant' := { restaurant with
        rating := recomputedRating revs, totalRatings := revs.length }
      ({ s1 with restaurants := saveRestaurant restaurant' s1.restaurants },
        .created review)

/-- The field assignments of `PUT /reviews/:reviewId`:
`review.rating = rating`, `review.comment = comment || review.comment`,
`review.image = image !== undefined ? image : review.image`,
`review.updatedAt = Date.now()`. -/
def applyReviewUpdate (review : Review) (req : UpdateReviewReq) (now : Nat) :
    Review :=
  { review with
    rating := req.rating.getD 0,
    comment := if falsyStr req.comment then review.comment else req.comment,
    image := match req.image with
      | .undef => review.image
      | .null => none
      | .val img => some img,
    updatedAt := now }

/-- The `PUT /reviews/:reviewId` handler: validate, check existence and
ownership, apply `applyReviewUpdate`, save, then recompute the restaurant's
`rating` (only) from the refetched review set.  If the restaurant no longer
exists the recompute throws after the review was already saved (a 500). -/
def updateReview (s : CoreState) (u : AuthUser) (reviewId : String)
    (req : UpdateReviewReq) (now : Nat) : CoreState × CoreRes :=
  if !(validateMongoId (some reviewId)) then
    (s, .badRequest "ID de reseña inválido")
  else if !(validateRating req.rating) then
    (s, .badRequest "La calificación debe ser un número entre 1 y 5")
  else if !(validateReviewComment req.comment) then
    (s, .badRequest "El comentario no puede exceder 250 caracteres")
  else if !(validateImageFile req.image) then
    (s, .badRequest "La imagen no tiene un formato válido")
  else
    match s.reviews.find? (fun r => r.id == reviewId) with
    | none => (s, .notFound "Review not found")
    | some review =>
      if !(review.userId == u.userId) then
        (s, .forbidden "Not authorized to edit this review")
      else
        let review' : Review := applyReviewUpdate review req now
        let s1 : CoreState := { s with reviews := saveReviewDoc review' s.reviews }
        let revs := reviewsFor s1 review.restaurantId
        match s1.restaurants.find? (fun r => r.id == review.restaurantId) with
        | none => (s1, .serverError)
        | some restaurant =>
          let restaurant' := { restaurant with rating := recomputedRating revs }
          ({ s1 with restaurants := saveRestaurant restaurant' s1.restaurants },
            .okReview review')

/-- The `DELETE /reviews/:reviewId` handler: validate, check existence and
ownership, delete the review, then recompute the restaurant's aggregate
from the remaining reviews, resetting to `0/0` when none remain. -/
def deleteReview (s : CoreState) (u : AuthUser) (reviewId : String) :
    CoreState × CoreRes :=
  if !(validateMongoId (some reviewId)) then
    (s, .badRequest "ID de reseña inválido")
  else
    match s.reviews.find? (fun r => r.id == reviewId) with
    | none => (s, .notFound "Review not found")
    | some review =>
      if !(review.userId == u.userId) then
        (s, .forbidden "Not authorized to delete this review")
      else
        let restaurantId := review.restaurantId
        let s1 : CoreState := { s with reviews := deleteReviewById reviewId s.reviews }
        let revs := reviewsFor s1 restaurantId
        if revs.length > 0 then
          match s1.restaurants.find? (fun r => r.id == restaurantId) with
          | none => (s1, .serverError)
          | some restaurant =>
            let restaurant' := { restaurant with
              rating := recomputedRating revs, totalRatings := revs.length }
            ({ s1 with restaurants := saveRestaurant restaurant' s1.restaurants },
              .okMsg "Review deleted successfully")
        else
          match s1.restaurants.find? (fun r => r.id == restaurantId) with
          | none => (s1, .serverError)
          | some restaurant =>
            let restaurant' := { restaurant with rating := 0, totalRatings := 0 }
            ({ s1 with restaurants := saveRestaurant restaurant' s1.restaurants },
              .okMsg "Review deleted successfully")

/-- The `GET /reviews/:restaurantId` handler: the restaurant's reviews,
newest first. -/
def getReviews (s : CoreState) (restaurantId : String) : List Review :=
  (s.reviews.filter (fun r => r.restaurantId == restaurantId)).mergeSort
    (fun a b => decide (b.createdAt ≤ a.createdAt))

/-! ## `DELETE /restaurants/:id` with its persistence trace -/

/-- Persistence-layer operations issued by `DELETE /restaurants/:id`,
recorded in issue order. -/
inductive PersistOp where
  | deleteRestaurantDoc : String → PersistOp
  | deleteReviewsByRestaurant : String → PersistOp
  | deleteLikesByRestaurant : String → PersistOp
deriving DecidableEq, Repr

/-- `Restaurant.findByIdAndDelete`: remove the first restaurant with the
given id. -/
def deleteRestaurantById (i : String) : List Restaurant → List Restaurant
  | [] => []
  | x :: xs => if x.id == i then xs else x :: deleteRestaurantById i xs

/-- The `DELETE /restaurants/:id` handler: `findByIdAndDelete` the
restaurant, then `Review.deleteMany({restaurantId})`, then
`Like.deleteMany({restaurantId})`, then report success. -/
def deleteRestaurant (s : CoreState) (id : String) :
    CoreState × List PersistOp × CoreRes :=
  match s.restaurants.find? (fun r => r.id == id) with
  | none =>
    (s, [.deleteRestaurantDoc id], .notFound "Restaurant not found")
  | some _ =>
    let s1 : CoreState :=
      { restaurants := deleteRestaurantById id s.restaurants,
        reviews := s.reviews.filter (fun r => !(r.restaurantId == id)),
        likes := s.likes.filter (fun l => !(l.restaurantId == id)) }
    (s1,
      [.deleteRestaurantDoc id, .deleteReviewsByRestaurant id, .deleteLikesByRestaurant id],
      .okMsg "Restaurant deleted successfully")

/-! ## Sequences of review operations (for the aggregate invariant) -/

/-- One sequentially executed review-lifecycle request. -/
inductive ReviewOp where
  | createOp : AuthUser → CreateReviewReq → String → Nat → ReviewOp
  | updateOp : AuthUser → String → UpdateReviewReq → Nat → ReviewOp
  | deleteOp : AuthUser → String → ReviewOp
deriving DecidableEq, Repr

/-- State after one review operation (the handler's response is dropped). -/
def applyOp (s : CoreState) : ReviewOp → CoreState
  | .createOp u req freshId now => (createReview s u req freshId now).1
  | .updateOp u reviewId req now => (updateReview s u reviewId req now).1
  | .deleteOp u reviewId => (deleteReview s u reviewId).1

/-- State after a sequence of review operations. -/
def applyOps (s : CoreState) (ops : List ReviewOp) : CoreState :=
  ops.foldl applyOp s

/-- The aggregate-rating invariant for the restaurant with id `rid`:
its stored `rating` is the two-decimal rounded mean of its current reviews
(`0` when there are none) and `totalRatings` is their count. -/
def ratingInvariant (s : CoreState) (rid : String) : Bool :=
  match s.restaurants.find? (fun r => r.id == rid) with
  | none => true
  | some rest =>
    decide (rest.totalRatings = (reviewsFor s rid).length) &&
    decide (rest.rating = (if (reviewsFor s rid).length = 0 then 0
                           else recomputedRating (reviewsFor s rid)))

/-! ## Chat service (`chat-service/index.js`) -/

/-- A persisted `Message` document.  Ids are drawn from a counter standing
for driver-assigned ObjectIds. -/
structure Message where
  id : Nat
  userId : String
  userName : String
  message : String
  room : String
  createdAt : Nat
deriving DecidableEq, Repr

/-- The chat service's state: persisted messages, the process-local
socket-to-room membership, and the id counter. -/
structure ChatState where
  messages : List Message
  membership : List (String × String)
  nextId : Nat
deriving DecidableEq, Repr

/-- Events the chat server emits, each paired with a recipient socket. -/
inductive ChatEvent where
  | errorEv : String → ChatEvent
  | messageHistory : List Message → ChatEvent
  | receiveMessage : Message → ChatEvent
deriving DecidableEq, Repr

/-- Payload of a `send-message` event. -/
structure SendMessageData where
  userId : Option String
  userName : Option String
  message : Option String
  room : Option String
deriving DecidableEq, Repr

/-- The `sort({createdAt:-1})` comparator: newest first. -/
def msgRecencyLe (a b : Message) : Bool :=
  decide (b.createdAt ≤ a.createdAt)

/-- The history a `join-room` reply carries: the room's messages fetched
newest-first (`sort({createdAt:-1})`), limited to 50, then reversed. -/
def joinRoomHistory (msgs : List Message) (room : String) : List Message :=
  (((msgs.filter (fun m => m.room == room)).mergeSort msgRecencyLe).take 50).reverse

/-- The sockets currently joined to a room. -/
def socketsInRoom (st : ChatState) (room : String) : List String :=
  (st.membership.filter (fun p => p.2 == room)).map (fun p => p.1)

/-- The `join-room` handler: add the socket to the room's broadcast group
and emit the room's recent history back to that socket only. -/
def joinRoom (st : ChatState) (sock room : String) :
    ChatState × List (String × ChatEvent) :=
  let st' := if st.membership.contains (sock, room) then st
             else { st with membership := st.membership ++ [(sock, room)] }
  (st', [(sock, .messageHistory (joinRoomHistory st.messages room))])

/-- The `send-message` handler: if any of `userId`, `userName`, `message`
is missing, emit an error to the sender only.  The Message schema declares
`message` with `trim: true` and `required: true`, so `save()` throws when
the trimmed text is empty (a whitespace-only message): the catch then
emits "Failed to send message" to the sender, with nothing persisted or
broadcast.  Otherwise persist a new message (room defaulting to
`"general"`, text trimmed by the schema) and broadcast the persisted
message to every socket joined to that room. -/
def sendMessage (st : ChatState) (sender : String) (d : SendMessageData)
    (now : Nat) : ChatState × List (String × ChatEvent) :=
  if falsyStr d.userId || falsyStr d.userName || falsyStr d.message then
    (st, [(sender, .errorEv "Missing required fields")])
  else if jsTrim (d.message.getD "") == "" then
    (st, [(sender, .errorEv "Failed to send message")])
  else
    let room := d.room.getD "general"
    let m : Message :=
      { id := st.nextId, userId := d.userId.getD "",
        userName := d.userName.getD "", message := jsTrim (d.message.getD ""),
        room := room, createdAt := now }
    ({ st with messages := st.messages ++ [m], nextId := st.nextId + 1 },
      (socketsInRoom st room).map (fun sock => (sock, .receiveMessage m)))

/-! ## Auth service password-reset request (`auth-service/index.js`) -/

/-- The regex test `^[^\s@]+@[^\s@]+\.[^\s@]+$` from `validateEmail`:
no whitespace, exactly one `@` which is not first, and after the `@` a dot
with at least one character on each side. -/
def emailRegexTest (s : String) : Bool :=
  let cs := s.toList
  cs.all (fun c => !(jsWhitespace c)) &&
  cs.count '@' == 1 &&
  (let p := cs.takeWhile (fun c => !(c == '@'))
   let q := (cs.drop p.length).drop 1
   !(p.isEmpty) && (q.drop 1).dropLast.contains '.')

/-- `validateEmail`: the email must be truthy and pass the regex test. -/
def validateEmail : Option String → Bool
  | none => false
  | some s => s != "" && emailRegexTest s

/-- A `User` document (only the fields the password-reset-request handler
touches). -/
structure AuthUserDoc where
  id : String
  email : String
  resetCode : Option String
  resetToken : Option String
  resetTokenExpiry : Option Nat
deriving DecidableEq, Repr

/-- The auth service's MongoDB state. -/
structure AuthState where
  users : List AuthUserDoc
deriving DecidableEq, Repr

/-- `doc.save()` on a fetched user. -/
def saveUserDoc (doc : AuthUserDoc) : List AuthUserDoc → List AuthUserDoc
  | [] => []
  | x :: xs => if x.id == doc.id then doc :: xs else x :: saveUserDoc doc xs

/-- Observable JSON responses of `POST /password-reset-request`.
`okGeneric` is `{message}`, `okGenericSuccess` is `{message, success:true}`,
and `okToken` is the old variant's `{message, resetToken}`. -/
inductive PrrResponse where
  | badRequest : String → PrrResponse
  | okGeneric : String → PrrResponse
  | okGenericSuccess : String → PrrResponse
  | okToken : String → String → PrrResponse
  | serverError : String → PrrResponse
deriving DecidableEq, Repr

/-- The generic message of the current `POST /password-reset-request`. -/
def prrGenericMsg : String :=
  "Si el email existe en nuestro sistema, recibirás un código en tu bandeja de entrada"

/-- The message field of a password-reset-request response (the `error`
field for the failure shapes). -/
def prrMessage : PrrResponse → String
  | .badRequest m => m
  | .okGeneric m => m
  | .okGenericSuccess m => m
  | .okToken m _ => m
  | .serverError m => m

/-- The current `POST /password-reset-request` handler: validate the email,
answer generically when no account matches, otherwise store a reset code
and token, send the email (`emailSendOk` is the mailer outcome; a failure
is a 500), and answer with the generic message plus `success:true`. -/
def passwordResetRequest (st : AuthState) (email : Option String)
    (code token : String) (now : Nat) (emailSendOk : Bool) :
    AuthState × PrrResponse :=
  if !(validateRequired email) then (st, .badRequest "Email es requerido")
  else if !(validateEmail email) then
    (st, .badRequest "El email debe ser válido (ejemplo@dominio.com)")
  else
    match st.users.find? (fun u => u.email == email.getD "") with
    | none => (st, .okGeneric prrGenericMsg)
    | some user =>
      let user' := { user with
        resetToken := some token,
        resetCode := some code,
        resetTokenExpiry := some (now + 900000) }
      let st' : AuthState := { users := saveUserDoc user' st.users }
      if emailSendOk then (st', .okGenericSuccess prrGenericMsg)
      else (st',
        .serverError "No pudimos enviar el email de reseteo. Por favor intenta más tarde.")

/-- The old `POST /password-reset-request` variant, which returns the reset
token in the response body when the account exists. -/
def passwordResetRequestOld (st : AuthState) (email : Option String)
    (token : String) (now : Nat) : AuthState × PrrResponse :=
  match email with
  | none => (st, .badRequest "Email is required")
  | some e =>
    if e == "" then (st, .badRequest "Email is required")
    else
      match st.users.find? (fun u => u.email == e) with
      | none => (st, .okGeneric "If email exists, reset link will be sent")
      | some user =>
        let user' := { user with
          resetToken := some token,
          resetTokenExpiry := some (now + 3600000) }
        ({ users := saveUserDoc user' st.users },
          .okToken "Password reset token generated" token)

/-- Round a rational to the nearest integer, ties to even — the IEEE-754
default rounding of the significand. -/
def roundHalfEven (x : ℚ) : ℤ :=
  if x - ⌊x⌋ < 1 / 2 then ⌊x⌋
  else if 1 / 2 < x - ⌊x⌋ then ⌊x⌋ + 1
  else if ⌊x⌋ % 2 = 0 then ⌊x⌋ else ⌊x⌋ + 1

/-- The IEEE-754 binary64 value nearest to a positive rational in the
normal range: scale by a power of two into `[2^52, 2^53)`, round the
significand half-to-even, and scale back.  The handlers only reach review
means in `[1,5]`; non-positive inputs (unreachable there) are mapped
to 0. -/
def float64Nearest (q : ℚ) : ℚ :=
  if q ≤ 0 then 0
  else
    ((roundHalfEven (q * 2 ^ (52 - Int.log 2 q)) : ℤ) : ℚ) *
      2 ^ (Int.log 2 q - 52)

/-- The aggregate rating the program actually stores:
`parseFloat((sum/count).toFixed(2))`, where `sum/count` is IEEE-754 double
division — the binary64 value nearest the exact quotient — and `toFixed`
rounds that double to two decimals, ties to the larger candidate. -/
def recomputedRatingFP (l : List Review) : ℚ :=
  toFixed2 (float64Nearest (avgRating l))

/-! ## Example fixtures for concrete instantiations -/

def exRestaurantId : String := "aaaaaaaaaaaaaaaaaaaaaaaa"

def exReviewId : String := "bbbbbbbbbbbbbbbbbbbbbbbb"

def exReviewId2 : String := "cccccccccccccccccccccccc"

def exLikeId : String := "dddddddddddddddddddddddd"

def exLikeId2 : String := "eeeeeeeeeeeeeeeeeeeeeeee"

def exAlice : AuthUser := ⟨"user-alice", "Alice"⟩

def exBob : AuthUser := ⟨"user-bob", "Bob"⟩

def exRestaurant : Restaurant := ⟨exRestaurantId, "Chez X", 0, 0⟩

def exReview : Review :=
  ⟨exReviewId, exRestaurantId, "user-alice", "Alice", 5, some "rico", some "img", 1, 1⟩

/-- A state holding one restaurant and one review by Alice. -/
def exState : CoreState := ⟨[⟨exRestaurantId, "Chez X", 5, 1⟩], [exReview], []⟩

/-- A fresh state holding one restaurant with no reviews and no likes. -/
def exFreshState : CoreState := ⟨[exRestaurant], [], []⟩

/-- Create a 5-star and a 3-star review, then delete the 3-star one. -/
def exOps : List ReviewOp :=
  [.createOp exAlice ⟨some exRestaurantId, some 5, some "rico", .undef⟩ exReviewId 1,
   .createOp exBob ⟨some exRestaurantId, some 3, none, .undef⟩ exReviewId2 2,
   .deleteOp exBob exReviewId2]

/-- 27 three-star and 13 two-star reviews: mean 107/40 = 2.675, a
two-decimal rounding tie that binary64 cannot represent exactly. -/
def exC2Reviews : List Review :=
  List.replicate 27 ⟨"r3", exRestaurantId, "u", "U", 3, none, none, 1, 1⟩ ++
  List.replicate 13 ⟨"r2", exRestaurantId, "u", "U", 2, none, none, 2, 2⟩

/-- A chat state with one socket joined to room "general". -/
def exChatState : ChatState := ⟨[], [("sockA", "general")], 0⟩

/-! ## Helper lemmas about the collection primitives -/

theorem find?_saveRestaurant_self (doc a : Restaurant) (l : List Restaurant)
    (h : l.find? (fun r => r.id == doc.id) = some a) :
    (saveRestaurant doc l).find? (fun r => r.id == doc.id) = some doc := by
  induction l with
  | nil => simp [List.find?] at h
  | cons x xs ih =>
    by_cases hx : (x.id == doc.id) = true
    · simp [saveRestaurant, hx, List.find?]
    · have hx' : (x.id == doc.id) = false := by
        simpa using hx
      have hrec : xs.find? (fun r => r.id == doc.id) = some a := by
        simpa [List.find?_cons, hx'] using h
      simp [saveRestaurant, hx', List.find?_cons, ih hrec]

theorem find?_saveRestaurant_other (doc : Restaurant) (q : String)
    (l : List Restaurant) (h : (doc.id == q) = false) :
    (saveRestaurant doc l).find? (fun r => r.id == q) =
      l.find? (fun r => r.id == q) := by
  induction l with
  | nil => simp [saveRestaurant]
  | cons x xs ih =>
    by_cases hx : (x.id == doc.id) = true
    · have hxq : (x.id == q) = false := by
        have : x.id = doc.id := by simpa using hx
        simpa [this] using h
      simp [saveRestaurant, hx, List.find?_cons, hxq, h]
    · have hx' : (x.id == doc.id) = false := by simpa using hx
      by_cases hq : (x.id == q) = true
      · simp [saveRestaurant, hx', List.find?_cons, hq]
      · have hq' : (x.id == q) = false := by simpa using hq
        simp [saveRestaurant, hx', List.find?_cons, hq', ih]

theorem saveReviewDoc_decomp (doc a : Review) (l : List Review)
    (h : l.find? (fun r => r.id == doc.id) = some a) :
    ∃ l1 l2, l = l1 ++ a :: l2 ∧ saveReviewDoc doc l = l1 ++ doc :: l2 := by
  induction l with
  | nil => simp [List.find?] at h
  | cons x xs ih =>
    by_cases hx : (x.id == doc.id) = true
    · refine ⟨[], xs, ?_, ?_⟩
      · have : x = a := by
          have := h
          simp [List.find?_cons, hx] at this
          simpa using this
        simp [this]
      · simp [saveReviewDoc, hx]
    · have hx' : (x.id == doc.id) = false := by simpa using hx
      have hrec : xs.find? (fun r => r.id == doc.id) = some a := by
        simpa [List.find?_cons, hx'] using h
      obtain ⟨l1, l2, hl, hs⟩ := ih hrec
      exact ⟨x :: l1, l2, by simp [hl], by simp [saveReviewDoc, hx', hs]⟩

theorem deleteReviewById_decomp (i : String) (a : Review) (l : List Review)
    (h : l.find? (fun r => r.id == i) = some a) :
    ∃ l1 l2, l = l1 ++ a :: l2 ∧ deleteReviewById i l = l1 ++ l2 := by
  induction l with
  | nil => simp [List.find?] at h
  | cons x xs ih =>
    by_cases hx : (x.id == i) = true
    · refine ⟨[], xs, ?_, ?_⟩
      · have : x = a := by
          have := h
          simp [List.find?_cons, hx] at this
          simpa using this
        simp [this]
      · simp [deleteReviewById, hx]
    · have hx' : (x.id == i) = false := by simpa using hx
      have hrec : xs.find? (fun r => r.id == i) = some a := by
        simpa [List.find?_cons, hx'] using h
      obtain ⟨l1, l2, hl, hs⟩ := ih hrec
      exact ⟨x :: l1, l2, by simp [hl], by simp [deleteReviewById, hx', hs]⟩

theorem ratingInvariant_iff (R : List Restaurant) (Y : List Review)
    (K : List Like) (rid : String) :
    ratingInvariant ⟨R, Y, K⟩ rid = true ↔
      ∀ rest, R.find? (fun r => r.id == rid) = some rest →
        rest.totalRatings = (Y.filter (fun r => r.restaurantId == rid)).length ∧
        rest.rating =
          (if (Y.filter (fun r => r.restaurantId == rid)).length = 0 then 0
           else recomputedRating (Y.filter (fun r => r.restaurantId == rid))) := by
  unfold ratingInvariant reviewsFor
  cases hf : R.find? (fun r => r.id == rid) with
  | none => simp
  | some rest =>
    simp only [Bool.and_eq_true, decide_eq_true_eq]
    constructor
    · rintro ⟨h1, h2⟩ rest2 h3
      injection h3 with h3
      subst h3
      exact ⟨h1, h2⟩
    · intro hh
      exact hh rest rfl

theorem ratingInvariant_of_none (R : List Restaurant) (Y : List Review)
    (K : List Like) (rid : String)
    (h : R.find? (fun r => r.id == rid) = none) :
    ratingInvariant ⟨R, Y, K⟩ rid = true := by
  rw [ratingInvariant_iff]
  intro rest2 hfind2
  rw [h] at hfind2
  cases hfind2

theorem ratingInvariant_congr (R : List Restaurant) (Y Y' : List Review)
    (K K' : List Like) (rid : String)
    (hfil : Y'.filter (fun r => r.restaurantId == rid) =
      Y.filter (fun r => r.restaurantId == rid))
    (h : ratingInvariant ⟨R, Y, K⟩ rid = true) :
    ratingInvariant ⟨R, Y', K'⟩ rid = true := by
  rw [ratingInvariant_iff] at h ⊢
  intro rest2 hfind2
  rw [hfil]
  exact h rest2 hfind2

theorem ratingInvariant_step_other (R : List Restaurant) (Y Y' : List Review)
    (K K' : List Like) (doc : Restaurant) (rid : String)
    (hne : (doc.id == rid) = false)
    (hfil : Y'.filter (fun r => r.restaurantId == rid) =
      Y.filter (fun r => r.restaurantId == rid))
    (h : ratingInvariant ⟨R, Y, K⟩ rid = true) :
    ratingInvariant ⟨saveRestaurant doc R, Y', K'⟩ rid = true := by
  rw [ratingInvariant_iff] at h ⊢
  intro rest2 hfind2
  rw [find?_saveRestaurant_other doc rid R hne] at hfind2
  rw [hfil]
  exact h rest2 hfind2

theorem ratingInvariant_step_self (R : List Restaurant) (Y' : List Review)
    (K' : List Like) (doc a : Restaurant) (rid : String)
    (hq : doc.id = rid)
    (hfind : R.find? (fun r => r.id == doc.id) = some a)
    (ht : doc.totalRatings = (Y'.filter (fun r => r.restaurantId == rid)).length)
    (hr : doc.rating =
      (if (Y'.filter (fun r => r.restaurantId == rid)).length = 0 then 0
       else recomputedRating (Y'.filter (fun r => r.restaurantId == rid)))) :
    ratingInvariant ⟨saveRestaurant doc R, Y', K'⟩ rid = true := by
  rw [ratingInvariant_iff]
  intro rest2 hfind2
  rw [← hq] at hfind2
  rw [find?_saveRestaurant_self doc a R hfind] at hfind2
  injection hfind2 with h2
  subst h2
  exact ⟨ht, hr⟩

theorem deleteLikeById_append_fresh (L : List Like) (x : Like)
    (hf : ∀ l ∈ L, (l.id == x.id) = false) :
    deleteLikeById x.id (L ++ [x]) = L := by
  induction L with
  | nil => simp [deleteLikeById]
  | cons y ys ih =>
    have hy : (y.id == x.id) = false := hf y (by simp)
    simp [deleteLikeById, hy, ih (fun l hl => hf l (by simp [hl]))]

theorem ratingInvariant_create (s : CoreState) (u : AuthUser) (req : CreateReviewReq)
    (freshId : String) (now : Nat) (rid : String)
    (h : ratingInvariant s rid = true) :
    ratingInvariant (createReview s u req freshId now).1 rid = true := by
  obtain ⟨R, Y, K⟩ := s
  unfold createReview
  split
  · exact h
  split
  · exact h
  split
  · exact h
  split
  · exact h
  dsimp only
  cases hfind : List.find? (fun r => r.id == req.restaurantId.getD "") R with
  | none => simp only [hfind]; exact h
  | some rest =>
    simp only [hfind]
    have hrestid : rest.id = req.restaurantId.getD "" := by
      have := List.find?_some hfind
      simpa using this
    by_cases hq : req.restaurantId.getD "" = rid
    · subst hq
      refine ratingInvariant_step_self R _ K _ rest _ hrestid ?_ ?_ ?_
      · rw [hrestid]
        exact hfind
      · simp [reviewsFor]
      · simp [reviewsFor, List.filter_append]
    · refine ratingInvariant_step_other R Y _ K K _ rid ?_ ?_ h
      · simp only [beq_eq_false_iff_ne, ne_eq]
        rw [hrestid]
        exact hq
      · simp [List.filter_append, hq]

theorem applyReviewUpdate_id (r : Review) (q : UpdateReviewReq) (n : Nat) :
    (applyReviewUpdate r q n).id = r.id := rfl

theorem applyReviewUpdate_restaurantId (r : Review) (q : UpdateReviewReq) (n : Nat) :
    (applyReviewUpdate r q n).restaurantId = r.restaurantId := rfl

theorem ratingInvariant_update (s : CoreState) (u : AuthUser) (reviewId : String)
    (req : UpdateReviewReq) (now : Nat) (rid : String)
    (h : ratingInvariant s rid = true) :
    ratingInvariant (updateReview s u reviewId req now).1 rid = true := by
  obtain ⟨R, Y, K⟩ := s
  unfold updateReview
  split
  · exact h
  split
  · exact h
  split
  · exact h
  split
  · exact h
  dsimp only
  cases hrev : List.find? (fun r => r.id == reviewId) Y with
  | none => simp only [hrev]; exact h
  | some review =>
    simp only [hrev]
    split
    · exact h
    · have hrevid : review.id = reviewId := by simpa using List.find?_some hrev
      have hrev' : Y.find? (fun r => r.id == (applyReviewUpdate review req now).id) = some review := by
        have hid : (applyReviewUpdate review req now).id = reviewId := hrevid
        rw [hid]
        exact hrev
      obtain ⟨l1, l2, hy, hs⟩ :=
        saveReviewDoc_decomp (applyReviewUpdate review req now) review Y hrev'
      cases hres : List.find? (fun r => r.id == review.restaurantId) R with
      | none =>
        simp only [hres]
        by_cases hq : review.restaurantId = rid
        · exact ratingInvariant_of_none R _ K rid (by rw [← hq]; exact hres)
        · refine ratingInvariant_congr R Y _ K K rid ?_ h
          have hpr : (review.restaurantId == rid) = false := by
            simpa using hq
          have hpd : ((applyReviewUpdate review req now).restaurantId == rid) = false := by
            rw [applyReviewUpdate_restaurantId]
            exact hpr
          rw [hs]
          conv_rhs => rw [hy]
          simp [List.filter_append, List.filter_cons, hpr, hpd]
      | some restaurant =>
        simp only [hres]
        have hresid : restaurant.id = review.restaurantId := by
          simpa using List.find?_some hres
        by_cases hq : review.restaurantId = rid
        · subst hq
          rw [ratingInvariant_iff] at h
          obtain ⟨h1, h2⟩ := h restaurant hres
          have hpr : (review.restaurantId == review.restaurantId) = true := by simp
          have hpd : ((applyReviewUpdate review req now).restaurantId ==
              review.restaurantId) = true := by
            rw [applyReviewUpdate_restaurantId]
            exact hpr
          refine ratingInvariant_step_self R _ K _ restaurant review.restaurantId
            hresid ?_ ?_ ?_
          · have hfr : List.find? (fun r => r.id == restaurant.id) R = some restaurant := by
              rw [hresid]
              exact hres
            exact hfr
          · show restaurant.totalRatings = _
            rw [hs]
            rw [hy] at h1
            rw [h1]
            simp [List.filter_append, List.filter_cons, hpr, hpd]
          · have hlen : (((saveReviewDoc (applyReviewUpdate review req now) Y).filter
                (fun r => r.restaurantId == review.restaurantId)).length) ≠ 0 := by
              rw [hs]
              simp [List.filter_append, List.filter_cons, hpd]
            rw [if_neg hlen]
            show recomputedRating (reviewsFor ⟨R, saveReviewDoc (applyReviewUpdate review req now) Y, K⟩ review.restaurantId) = _
            rfl
        · have hpr : (review.restaurantId == rid) = false := by simpa using hq
          have hpd : ((applyReviewUpdate review req now).restaurantId == rid) = false := by
            rw [applyReviewUpdate_restaurantId]
            exact hpr
          refine ratingInvariant_step_other R Y _ K K _ rid ?_ ?_ h
          · show (restaurant.id == rid) = false
            rw [hresid]
            exact hpr
          · rw [hs]
            conv_rhs => rw [hy]
            simp [List.filter_append, List.filter_cons, hpr, hpd]

theorem ratingInvariant_delete (s : CoreState) (u : AuthUser) (reviewId : String)
    (rid : String) (h : ratingInvariant s rid = true) :
    ratingInvariant (deleteReview s u reviewId).1 rid = true := by
  obtain ⟨R, Y, K⟩ := s
  unfold deleteReview
  split
  · exact h
  cases hrev : List.find? (fun r => r.id == reviewId) Y with
  | none => simp only [hrev]; exact h
  | some review =>
    simp only [hrev]
    split
    · exact h
    · obtain ⟨l1, l2, hy, hs⟩ := deleteReviewById_decomp reviewId review Y hrev
      have hprev : (review.restaurantId == review.restaurantId) = true := by simp
      split
      · -- remaining reviews exist
        cases hres : List.find? (fun r => r.id == review.restaurantId) R with
        | none =>
          simp only [hres]
          by_cases hq : review.restaurantId = rid
          · exact ratingInvariant_of_none R _ K rid (by rw [← hq]; exact hres)
          · refine ratingInvariant_congr R Y _ K K rid ?_ h
            have hpr : (review.restaurantId == rid) = false := by simpa using hq
            rw [hs]
            conv_rhs => rw [hy]
            simp [List.filter_append, List.filter_cons, hpr]
        | some restaurant =>
          simp only [hres]
          have hresid : restaurant.id = review.restaurantId := by
            simpa using List.find?_some hres
          by_cases hq : review.restaurantId = rid
          · subst hq
            rename_i hlen
            refine ratingInvariant_step_self R _ K _ restaurant review.restaurantId
              hresid ?_ ?_ ?_
            · have hfr : List.find? (fun r => r.id == restaurant.id) R = some restaurant := by
                rw [hresid]
                exact hres
              exact hfr
            · rfl
            · have hne : ((deleteReviewById reviewId Y).filter
                  (fun r => r.restaurantId == review.restaurantId)).length ≠ 0 := by
                exact Nat.pos_iff_ne_zero.mp hlen
              rw [if_neg hne]
              rfl
          · have hpr : (review.restaurantId == rid) = false := by simpa using hq
            refine ratingInvariant_step_other R Y _ K K _ rid ?_ ?_ h
            · show (restaurant.id == rid) = false
              rw [hresid]
              exact hpr
            · rw [hs]
              conv_rhs => rw [hy]
              simp [List.filter_append, List.filter_cons, hpr]
      · -- no reviews remain
        cases hres : List.find? (fun r => r.id == review.restaurantId) R with
        | none =>
          simp only [hres]
          by_cases hq : review.restaurantId = rid
          · exact ratingInvariant_of_none R _ K rid (by rw [← hq]; exact hres)
          · refine ratingInvariant_congr R Y _ K K rid ?_ h
            have hpr : (review.restaurantId == rid) = false := by simpa using hq
            rw [hs]
            conv_rhs => rw [hy]
            simp [List.filter_append, List.filter_cons, hpr]
        | some restaurant =>
          simp only [hres]
          have hresid : restaurant.id = review.restaurantId := by
            simpa using List.find?_some hres
          by_cases hq : review.restaurantId = rid
          · subst hq
            rename_i hlen
            have hlen' : (reviewsFor ⟨R, deleteReviewById reviewId Y, K⟩
                review.restaurantId).length = 0 := by omega
            have hzero : ((deleteReviewById reviewId Y).filter
                (fun r => r.restaurantId == review.restaurantId)).length = 0 := hlen'
            refine ratingInvariant_step_self R _ K _ restaurant review.restaurantId
              hresid ?_ ?_ ?_
            · have hfr : List.find? (fun r => r.id == restaurant.id) R = some restaurant := by
                rw [hresid]
                exact hres
              exact hfr
            · exact hzero.symm
            · rw [if_pos hzero]
          · have hpr : (review.restaurantId == rid) = false := by simpa using hq
            refine ratingInvariant_step_other R Y _ K K _ rid ?_ ?_ h
            · show (restaurant.id == rid) = false
              rw [hresid]
              exact hpr
            · rw [hs]
              conv_rhs => rw [hy]
              simp [List.filter_append, List.filter_cons, hpr]

/-- Claim C1: for every restaurant R, after any sequence of sequentially
executed review create, update, and delete operations, R's stored `rating`
equals the two-decimal rounded mean of its current reviews and
`totalRatings` equals their count, with `0`/`0` when no reviews remain:
the `ratingInvariant` is preserved by every `ReviewOp`. -/
theorem c1_rating_aggregate_invariant (s : CoreState) (rid : String)
    (ops : List ReviewOp) (h : ratingInvariant s rid = true) :
    ratingInvariant (applyOps s ops) rid = true := by
  induction ops generalizing s with
  | nil => exact h
  | cons op ops ih =>
    have h1 : ratingInvariant (applyOp s op) rid = true := by
      cases op with
      | createOp u req freshId now => exact ratingInvariant_create s u req freshId now rid h
      | updateOp u reviewId req now => exact ratingInvariant_update s u reviewId req now rid h
      | deleteOp u reviewId => exact ratingInvariant_delete s u reviewId rid h
    exact ih (applyOp s op) h1

/-- Witness for C1: a fresh restaurant still satisfies the invariant after
creating a 5-star and a 3-star review and deleting the 3-star one. -/
theorem c1_rating_aggregate_invariant_witness :
    ratingInvariant exFreshState exRestaurantId = true ∧
    ratingInvariant (applyOps exFreshState exOps) exRestaurantId = true :=
  ⟨by decide,
    c1_rating_aggregate_invariant exFreshState exRestaurantId exOps (by decide)⟩

theorem roundHalfEven_err (x : ℚ) : |(roundHalfEven x : ℚ) - x| ≤ 1 / 2 := by
  have h1 := Int.floor_le x
  have h2 := Int.lt_floor_add_one x
  unfold roundHalfEven
  split
  · rename_i h
    rw [abs_le]
    constructor <;> linarith
  · split
    · rename_i h h'
      rw [abs_le]
      push_cast
      constructor <;> linarith
    · split
      · rename_i h h' h''
        rw [abs_le]
        constructor <;> linarith
      · rename_i h h' h''
        rw [abs_le]
        push_cast
        constructor <;> linarith

theorem float64Nearest_err (q : ℚ) (hq : 0 < q) :
    |float64Nearest q - q| ≤ q / 2 ^ 53 := by
  rw [float64Nearest, if_neg (not_le.mpr hq)]
  have hlow : (2 : ℚ) ^ Int.log 2 q ≤ q := by
    have h := Int.zpow_log_le_self (b := 2) (R := ℚ) (by norm_num) hq
    push_cast at h
    exact h
  have hpow : (0 : ℚ) < (2 : ℚ) ^ (Int.log 2 q - 52) := zpow_pos (by norm_num) _
  have herr := roundHalfEven_err (q * 2 ^ (52 - Int.log 2 q))
  have hq' : q * 2 ^ (52 - Int.log 2 q) * 2 ^ (Int.log 2 q - 52) = q := by
    rw [mul_assoc, ← zpow_add₀ (by norm_num : (2:ℚ) ≠ 0)]
    norm_num
  have habs : ((roundHalfEven (q * 2 ^ (52 - Int.log 2 q)) : ℤ) : ℚ) *
      2 ^ (Int.log 2 q - 52) - q =
      (((roundHalfEven (q * 2 ^ (52 - Int.log 2 q)) : ℤ) : ℚ) -
        q * 2 ^ (52 - Int.log 2 q)) * 2 ^ (Int.log 2 q - 52) := by
    rw [sub_mul, hq']
  calc |((roundHalfEven (q * 2 ^ (52 - Int.log 2 q)) : ℤ) : ℚ) *
        2 ^ (Int.log 2 q - 52) - q|
      = |((roundHalfEven (q * 2 ^ (52 - Int.log 2 q)) : ℤ) : ℚ) -
          q * 2 ^ (52 - Int.log 2 q)| * 2 ^ (Int.log 2 q - 52) := by
        rw [habs, abs_mul, abs_of_pos hpow]
    _ ≤ (1 / 2) * 2 ^ (Int.log 2 q - 52) :=
        mul_le_mul_of_nonneg_right herr (le_of_lt hpow)
    _ ≤ q / 2 ^ 53 := by
        have hcomp : (1 / 2 : ℚ) * 2 ^ (Int.log 2 q - 52) * 2 ^ (53 : ℤ) =
            2 ^ Int.log 2 q := by
          rw [show (1 / 2 : ℚ) = 2 ^ (-1 : ℤ) by norm_num]
          rw [← zpow_add₀ (by norm_num : (2:ℚ) ≠ 0),
            ← zpow_add₀ (by norm_num : (2:ℚ) ≠ 0)]
          congr 1
          ring
        rw [le_div_iff₀ (by positivity : (0:ℚ) < (2:ℚ) ^ (53 : ℕ))]
        rw [show ((2:ℚ) ^ (53 : ℕ)) = (2:ℚ) ^ (53 : ℤ) by norm_num]
        rw [hcomp]
        exact hlow

theorem sumRatings_bounds (l : List Review)
    (h2 : ∀ r ∈ l, 1 ≤ r.rating ∧ r.rating ≤ 5) :
    (l.length : ℤ) ≤ sumRatings l ∧ sumRatings l ≤ 5 * l.length := by
  induction l with
  | nil => simp [sumRatings]
  | cons x xs ih =>
    obtain ⟨hx1, hx5⟩ := h2 x (by simp)
    obtain ⟨ih1, ih2⟩ := ih (fun r hr => h2 r (by simp [hr]))
    simp only [sumRatings, List.map_cons, List.sum_cons, List.length_cons] at *
    constructor <;> push_cast <;> omega

theorem avgRating_bounds (l : List Review) (h1 : l ≠ [])
    (h2 : ∀ r ∈ l, 1 ≤ r.rating ∧ r.rating ≤ 5) :
    1 ≤ avgRating l ∧ avgRating l ≤ 5 := by
  obtain ⟨hs1, hs2⟩ := sumRatings_bounds l h2
  have hlen : 0 < (l.length : ℚ) := by
    have := List.length_pos.mpr h1
    exact_mod_cast this
  rw [avgRating]
  constructor
  · rw [le_div_iff₀ hlen]
    have h : ((l.length : ℤ) : ℚ) ≤ ((sumRatings l : ℤ) : ℚ) := by
      exact_mod_cast hs1
    push_cast at h ⊢
    linarith
  · rw [div_le_iff₀ hlen]
    have h : ((sumRatings l : ℤ) : ℚ) ≤ (((5 : ℤ) * l.length : ℤ) : ℚ) := by
      exact_mod_cast hs2
    push_cast at h ⊢
    linarith

/-- Claim C2 (amended): for every non-empty list of reviews with integer
ratings in [1,5], the aggregate stored by the create/update/delete
recompute is the IEEE-754 double mean — the binary64 value nearest
`sum/count`, which lies within relative `2⁻⁵³` of the exact rational
mean — rounded to 2 decimal places with round-half-up applied to that
double: it is `n/100` for the unique integer `n` with
`100·dmean − 1/2 < n ≤ 100·dmean + 1/2`.  This agrees with round-half-up
of the exact mean except when the exact mean lies within the double's
rounding error of an odd multiple of 1/200, where the stored value follows
the double and can round to the smaller candidate. -/
theorem c2_recompute_double_half_up (l : List Review) (h1 : l ≠ [])
    (h2 : ∀ r ∈ l, 1 ≤ r.rating ∧ r.rating ≤ 5) :
    1 ≤ avgRating l ∧ avgRating l ≤ 5 ∧
    |float64Nearest (avgRating l) - avgRating l| ≤ avgRating l / 2 ^ 53 ∧
    ∃ n : ℤ, recomputedRatingFP l = (n : ℚ) / 100 ∧
      100 * float64Nearest (avgRating l) - 1 / 2 < (n : ℚ) ∧
      (n : ℚ) ≤ 100 * float64Nearest (avgRating l) + 1 / 2 := by
  obtain ⟨hb1, hb5⟩ := avgRating_bounds l h1 h2
  refine ⟨hb1, hb5, float64Nearest_err _ (by linarith),
    ⟨⌊float64Nearest (avgRating l) * 100 + 1 / 2⌋, rfl, ?_, ?_⟩⟩
  · have h := Int.lt_floor_add_one (float64Nearest (avgRating l) * 100 + 1 / 2)
    linarith
  · have h := Int.floor_le (float64Nearest (avgRating l) * 100 + 1 / 2)
    linarith

/-- Counterexample to C2 as stated: 27 three-star and 13 two-star reviews
have exact mean 107/40 = 2.675, an exact tie whose claimed half-up rounding
is 2.68; but the binary64 mean is 6023564501608038/2^51, slightly below
2.675, so the program's `toFixed(2)` stores 2.67 — the stored aggregate is
not the exact rational mean rounded half-up. -/
theorem c2_half_up_counterexample :
    avgRating exC2Reviews = 107 / 40 ∧
    recomputedRatingFP exC2Reviews = 267 / 100 ∧
    toFixed2 (avgRating exC2Reviews) = 268 / 100 ∧
    recomputedRatingFP exC2Reviews ≠ toFixed2 (avgRating exC2Reviews) := by
  have havg : avgRating exC2Reviews = 107 / 40 := by
    simp [avgRating, sumRatings, exC2Reviews]
  have hlog : Int.log 2 ((107 : ℚ) / 40) = 1 := by
    rw [Int.log_of_one_le_right 2 (by norm_num : (1:ℚ) ≤ 107/40)]
    have hfl : ⌊(107 : ℚ)/40⌋₊ = 2 := by
      rw [Nat.floor_eq_iff (by norm_num)]
      norm_num
    rw [hfl]
    norm_cast
    exact Nat.log_eq_of_pow_le_of_lt_pow (by norm_num) (by norm_num)
  have hx : (107 : ℚ)/40 * 2 ^ ((52 : ℤ) - 1) = 30117822508040192 / 5 := by
    norm_num
  have hfloor : ⌊(30117822508040192 : ℚ)/5⌋ = 6023564501608038 := by
    rw [Int.floor_eq_iff]
    constructor <;> norm_num
  have hrhe : roundHalfEven ((30117822508040192 : ℚ)/5) = 6023564501608038 := by
    unfold roundHalfEven
    rw [hfloor]
    rw [if_pos (by norm_num)]
  have hfe : float64Nearest ((107:ℚ)/40) = 6023564501608038 / 2 ^ (51:ℕ) := by
    rw [float64Nearest, if_neg (by norm_num), hlog, hx, hrhe]
    rw [show ((1:ℤ) - 52) = -(51:ℤ) by norm_num]
    rw [zpow_neg]
    rw [show ((2:ℚ) ^ (51:ℤ)) = ((2:ℚ) ^ (51:ℕ)) by norm_num]
    rw [div_eq_mul_inv]
    norm_num
  have hfix267 : toFixed2 ((6023564501608038 : ℚ) / 2 ^ (51:ℕ)) = 267/100 := by
    rw [toFixed2]
    rw [show ⌊(6023564501608038 : ℚ)/2^(51:ℕ) * 100 + 1/2⌋ = 267 by
      rw [Int.floor_eq_iff]
      constructor <;> norm_num]
    norm_num
  have hfix268 : toFixed2 ((107:ℚ)/40) = 268/100 := by
    rw [toFixed2]
    rw [show ⌊(107:ℚ)/40 * 100 + 1/2⌋ = 268 by
      rw [Int.floor_eq_iff]
      constructor <;> norm_num]
    norm_num
  refine ⟨havg, ?_, ?_, ?_⟩
  · rw [recomputedRatingFP, havg, hfe, hfix267]
  · rw [havg, hfix268]
  · rw [recomputedRatingFP, havg, hfe, hfix267, hfix268]
    norm_num

theorem like_find?_decomp (p : Like → Bool) (a : Like) (l : List Like)
    (h : l.find? p = some a) :
    ∃ l1 l2, l = l1 ++ a :: l2 ∧ ∀ x ∈ l1, p x = false := by
  induction l with
  | nil => simp [List.find?] at h
  | cons x xs ih =>
    by_cases hx : p x = true
    · refine ⟨[], xs, ?_, ?_⟩
      · have : x = a := by
          have := h
          simp [List.find?_cons, hx] at this
          simpa using this
        simp [this]
      · simp
    · have hx' : p x = false := by simpa using hx
      have hrec : xs.find? p = some a := by
        simpa [List.find?_cons, hx'] using h
      obtain ⟨l1, l2, hl, hs⟩ := ih hrec
      refine ⟨x :: l1, l2, by simp [hl], ?_⟩
      intro y hy
      rcases List.mem_cons.mp hy with hy | hy
      · subst hy; exact hx'
      · exact hs y hy

theorem deleteLikeById_middle (l1 l2 : List Like) (ex : Like)
    (hl1 : ∀ x ∈ l1, (x.id == ex.id) = false) :
    deleteLikeById ex.id (l1 ++ ex :: l2) = l1 ++ l2 := by
  induction l1 with
  | nil => simp [deleteLikeById]
  | cons y ys ih =>
    have hy : (y.id == ex.id) = false := hl1 y (by simp)
    simp [deleteLikeById, hy, ih (fun x hx => hl1 x (by simp [hx]))]

/-- Claim C3: the like toggle is an involution per (user, restaurant):
for an existing restaurant (with the unique index holding and distinct
document ids, as MongoDB guarantees), two sequential `POST /like` calls by
the same user restore the like-state of the pair, and the `liked` flags of
the two responses alternate, starting at `liked:true` from the unliked
state. -/
theorem c3_like_toggle_involution (s : CoreState) (u : AuthUser) (rid : String)
    (rest : Restaurant) (f1 f2 : String) (n1 n2 : Nat)
    (hrest : s.restaurants.find? (fun r => r.id == rid) = some rest)
    (hrid : rid ≠ "")
    (huniq : (s.likes.filter
      (fun l => l.restaurantId == rid && l.userId == u.userId)).length ≤ 1)
    (hids : (s.likes.map (fun l => l.id)).Nodup)
    (hfresh : ∀ l ∈ s.likes, l.id ≠ f1) :
    isLiked (postLike (postLike s u (some rid) f1 n1 (.ok ())).1
        u (some rid) f2 n2 (.ok ())).1 rid u.userId = isLiked s rid u.userId ∧
    likedFlag (postLike s u (some rid) f1 n1 (.ok ())).2 =
      some (!(isLiked s rid u.userId)) ∧
    likedFlag (postLike (postLike s u (some rid) f1 n1 (.ok ())).1
        u (some rid) f2 n2 (.ok ())).2 = some (isLiked s rid u.userId) := by
  have hridb : (rid == "") = false := by simpa using hrid
  cases hex : s.likes.find?
      (fun l => l.restaurantId == rid && l.userId == u.userId) with
  | none =>
    have hnot : isLiked s rid u.userId = false := by
      simp only [isLiked, List.any_eq_false]
      exact fun x hx => List.find?_eq_none.mp hex x hx
    have hfind2 : (s.likes ++ [(⟨f1, rid, u.userId, n1⟩ : Like)]).find?
        (fun l => l.restaurantId == rid && l.userId == u.userId) =
        some (⟨f1, rid, u.userId, n1⟩ : Like) := by
      rw [List.find?_append, hex]
      simp [List.find?]
    have hdel : deleteLikeById f1
        (s.likes ++ [(⟨f1, rid, u.userId, n1⟩ : Like)]) = s.likes :=
      deleteLikeById_append_fresh s.likes ⟨f1, rid, u.userId, n1⟩
        (fun l hl => by simpa using hfresh l hl)
    have heq1 : postLike s u (some rid) f1 n1 (.ok ()) =
        ({ s with likes := s.likes ++ [(⟨f1, rid, u.userId, n1⟩ : Like)] },
          .okLiked "Restaurant liked" true) := by
      simp [postLike, hridb, hrest, hex]
    have heq2 : postLike
        ({ s with likes := s.likes ++ [(⟨f1, rid, u.userId, n1⟩ : Like)] } : CoreState)
        u (some rid) f2 n2 (.ok ()) =
        (({ s with likes := s.likes } : CoreState),
          .okLiked "Restaurant unliked" false) := by
      simp [postLike, hridb, hrest, hfind2, hdel]
    rw [heq1]
    dsimp only
    rw [heq2]
    refine ⟨?_, ?_, ?_⟩
    · rfl
    · simp [likedFlag, hnot]
    · simp [likedFlag, hnot]
  | some ex =>
    have hPex := List.find?_some hex
    have hmem := List.mem_of_find?_eq_some hex
    have hliked : isLiked s rid u.userId = true := by
      simp only [isLiked, List.any_eq_true]
      exact ⟨ex, hmem, hPex⟩
    obtain ⟨l1, l2, hK, hl1P⟩ := like_find?_decomp _ ex s.likes hex
    have hl1id : ∀ x ∈ l1, (x.id == ex.id) = false := by
      intro x hx
      have hids' := hids
      rw [hK] at hids'
      simp only [List.map_append, List.map_cons, List.nodup_append] at hids'
      have hmem1 : x.id ∉ ex.id :: l2.map (fun l => l.id) :=
        hids'.2.2 (List.mem_map_of_mem _ hx)
      have hne : x.id ≠ ex.id := fun hc => hmem1 (by simp [hc])
      simpa using hne
    have hdel : deleteLikeById ex.id s.likes = l1 ++ l2 := by
      rw [hK]
      exact deleteLikeById_middle l1 l2 ex hl1id
    have hl2P : ∀ x ∈ l2,
        (x.restaurantId == rid && x.userId == u.userId) = false := by
      have hl1nil : l1.filter
          (fun l => l.restaurantId == rid && l.userId == u.userId) = [] :=
        List.filter_eq_nil_iff.mpr (fun a ha => by simp [hl1P a ha])
      have hcount : ((l1 ++ ex :: l2).filter
          (fun l => l.restaurantId == rid && l.userId == u.userId)).length ≤ 1 := by
        rw [← hK]
        exact huniq
      simp [List.filter_append, List.filter_cons, hPex, hl1nil] at hcount
      intro x hx
      have hx' := hcount x hx
      by_cases h1 : x.restaurantId = rid
      · simp [h1, hx' h1]
      · simp [h1]
    have hnone2 : (l1 ++ l2).find?
        (fun l => l.restaurantId == rid && l.userId == u.userId) = none := by
      rw [List.find?_eq_none]
      intro x hx
      rcases List.mem_append.mp hx with hx | hx
      · simp [hl1P x hx]
      · simp [hl2P x hx]
    have heq1 : postLike s u (some rid) f1 n1 (.ok ()) =
        (({ s with likes := l1 ++ l2 } : CoreState),
          .okLiked "Restaurant unliked" false) := by
      simp [postLike, hridb, hrest, hex, hdel]
    have heq2 : postLike ({ s with likes := l1 ++ l2 } : CoreState)
        u (some rid) f2 n2 (.ok ()) =
        ({ s with likes := (l1 ++ l2) ++ [(⟨f2, rid, u.userId, n2⟩ : Like)] },
          .okLiked "Restaurant liked" true) := by
      simp [postLike, hridb, hrest, hnone2]
    rw [heq1]
    dsimp only
    rw [heq2]
    refine ⟨?_, ?_, ?_⟩
    · rw [hliked]
      simp [isLiked]
    · simp [likedFlag, hliked]
    · simp [likedFlag, hliked]

/-- Witness for C2 (amended) at the tie list itself. -/
theorem c2_recompute_double_half_up_witness :
    1 ≤ avgRating exC2Reviews ∧ avgRating exC2Reviews ≤ 5 ∧
    |float64Nearest (avgRating exC2Reviews) - avgRating exC2Reviews| ≤
      avgRating exC2Reviews / 2 ^ 53 ∧
    ∃ n : ℤ, recomputedRatingFP exC2Reviews = (n : ℚ) / 100 ∧
      100 * float64Nearest (avgRating exC2Reviews) - 1 / 2 < (n : ℚ) ∧
      (n : ℚ) ≤ 100 * float64Nearest (avgRating exC2Reviews) + 1 / 2 :=
  c2_recompute_double_half_up exC2Reviews (by decide) (by decide)

/-- Witness for C3: on a fresh state the two calls yield liked:true then
liked:false and the pair ends unliked. -/
theorem c3_like_toggle_involution_witness :
    isLiked (postLike (postLike exFreshState exAlice (some exRestaurantId)
        exLikeId 1 (.ok ())).1 exAlice (some exRestaurantId) exLikeId2 2
        (.ok ())).1 exRestaurantId exAlice.userId =
      isLiked exFreshState exRestaurantId exAlice.userId ∧
    likedFlag (postLike exFreshState exAlice (some exRestaurantId) exLikeId 1
        (.ok ())).2 =
      some (!(isLiked exFreshState exRestaurantId exAlice.userId)) ∧
    likedFlag (postLike (postLike exFreshState exAlice (some exRestaurantId)
        exLikeId 1 (.ok ())).1 exAlice (some exRestaurantId) exLikeId2 2
        (.ok ())).2 =
      some (isLiked exFreshState exRestaurantId exAlice.userId) :=
  c3_like_toggle_involution exFreshState exAlice exRestaurantId exRestaurant
    exLikeId exLikeId2 1 2 (by decide) (by decide) (by decide) (by decide)
    (by decide)


theorem find?_saveReviewDoc_self (doc a : Review) (l : List Review)
    (h : l.find? (fun r => r.id == doc.id) = some a) :
    (saveReviewDoc doc l).find? (fun r => r.id == doc.id) = some doc := by
  induction l with
  | nil => simp [List.find?] at h
  | cons x xs ih =>
    by_cases hx : (x.id == doc.id) = true
    · simp [saveReviewDoc, hx, List.find?]
    · have hx' : (x.id == doc.id) = false := by simpa using hx
      have hrec : xs.find? (fun r => r.id == doc.id) = some a := by
        simpa [List.find?_cons, hx'] using h
      simp [saveReviewDoc, hx', List.find?_cons, ih hrec]

theorem falsyStr_eq_false (o : Option String) (h : falsyStr o = false) :
    ∃ t, o = some t ∧ t ≠ "" := by
  cases o with
  | none => simp [falsyStr] at h
  | some t =>
    refine ⟨t, rfl, ?_⟩
    simpa [falsyStr] using h

/-- Claim C5: when the `POST /like` insert of a new Like raises the
duplicate-unique-key violation (`error.code === 11000`) for the
(restaurantId, userId) pair, the handler answers a successful 200 response
with `liked:true` instead of surfacing an error. -/
theorem c5_duplicate_key_recovered (s : CoreState) (u : AuthUser) (rid : String)
    (rest : Restaurant) (freshId : String) (now : Nat)
    (hrest : s.restaurants.find? (fun r => r.id == rid) = some rest)
    (hrid : rid ≠ "")
    (hnone : s.likes.find?
      (fun l => l.restaurantId == rid && l.userId == u.userId) = none) :
    postLike s u (some rid) freshId now (.error 11000) =
      (s, .okLiked "Restaurant already liked" true) ∧
    statusOf (postLike s u (some rid) freshId now (.error 11000)).2 = 200 := by
  have hridb : (rid == "") = false := by simpa using hrid
  have heq : postLike s u (some rid) freshId now (.error 11000) =
      (s, .okLiked "Restaurant already liked" true) := by
    simp [postLike, hridb, hrest, hnone]
  exact ⟨heq, by rw [heq]; rfl⟩

/-- Claim C4 (amended): for an existing review and an authenticated user
other than its author, `DELETE /reviews/:reviewId` always fails with 403
Forbidden, and `PUT /reviews/:reviewId` fails with 403 Forbidden whenever
its payload passes validation (a payload that fails validation is rejected
with 400 before the ownership check); in every case neither the review
collection nor any restaurant aggregate is modified (the state is
unchanged). -/
theorem c4_owner_guard (s : CoreState) (u : AuthUser) (reviewId : String)
    (req : UpdateReviewReq) (now : Nat) (rev : Review)
    (hid : validateMongoId (some reviewId) = true)
    (hfind : s.reviews.find? (fun r => r.id == reviewId) = some rev)
    (hne : (rev.userId == u.userId) = false) :
    (deleteReview s u reviewId).1 = s ∧
    (deleteReview s u reviewId).2 =
      .forbidden "Not authorized to delete this review" ∧
    (updateReview s u reviewId req now).1 = s ∧
    (statusOf (updateReview s u reviewId req now).2 = 400 ∨
      (updateReview s u reviewId req now).2 =
        .forbidden "Not authorized to edit this review") ∧
    (validateRating req.rating = true →
      validateReviewComment req.comment = true →
      validateImageFile req.image = true →
      (updateReview s u reviewId req now).2 =
        .forbidden "Not authorized to edit this review") := by
  refine ⟨?_, ?_, ?_, ?_, ?_⟩
  · simp [deleteReview, hid, hfind, hne]
  · simp [deleteReview, hid, hfind, hne]
  · cases h1 : validateRating req.rating
    · simp [updateReview, hid, h1]
    · cases h2 : validateReviewComment req.comment
      · simp [updateReview, hid, h1, h2]
      · cases h3 : validateImageFile req.image
        · simp [updateReview, hid, h1, h2, h3]
        · simp [updateReview, hid, h1, h2, h3, hfind, hne]
  · cases h1 : validateRating req.rating
    · left; simp [updateReview, hid, h1, statusOf]
    · cases h2 : validateReviewComment req.comment
      · left; simp [updateReview, hid, h1, h2, statusOf]
      · cases h3 : validateImageFile req.image
        · left; simp [updateReview, hid, h1, h2, h3, statusOf]
        · right; simp [updateReview, hid, h1, h2, h3, hfind, hne]
  · intro h1 h2 h3
    simp [updateReview, hid, h1, h2, h3, hfind, hne]

/-- Claim C10: in an author's otherwise-valid `PUT /reviews/:reviewId`,
an absent or empty (falsy) comment field leaves the stored comment equal to
its previous value (`comment || review.comment`); a stored non-empty
comment can never become empty or absent through an update; yet the same
request clears the image by passing `image: null`. -/
theorem c10_update_comment_frame (s : CoreState) (u : AuthUser)
    (reviewId : String) (req : UpdateReviewReq) (now : Nat) (rev : Review)
    (hid : validateMongoId (some reviewId) = true)
    (hrt : validateRating req.rating = true)
    (hcm : validateReviewComment req.comment = true)
    (him : validateImageFile req.image = true)
    (hfind : s.reviews.find? (fun r => r.id == reviewId) = some rev)
    (hown : (rev.userId == u.userId) = true) :
    (updateReview s u reviewId req now).1.reviews.find?
        (fun r => r.id == reviewId) = some (applyReviewUpdate rev req now) ∧
    (falsyStr req.comment = true →
      (applyReviewUpdate rev req now).comment = rev.comment) ∧
    (∀ c, rev.comment = some c → c ≠ "" →
      ∃ c', (applyReviewUpdate rev req now).comment = some c' ∧ c' ≠ "") ∧
    (req.image = JsOpt.null → (applyReviewUpdate rev req now).image = none) := by
  have hrevid : rev.id = reviewId := by simpa using List.find?_some hfind
  refine ⟨?_, ?_, ?_, ?_⟩
  · have hfind' : s.reviews.find?
        (fun r => r.id == (applyReviewUpdate rev req now).id) = some rev := by
      have hidq : (applyReviewUpdate rev req now).id = reviewId := hrevid
      rw [hidq]
      exact hfind
    have hsave := find?_saveReviewDoc_self (applyReviewUpdate rev req now)
      rev s.reviews hfind'
    have hupd : (updateReview s u reviewId req now).1.reviews =
        saveReviewDoc (applyReviewUpdate rev req now) s.reviews := by
      cases hres : s.restaurants.find? (fun r => r.id == rev.restaurantId) with
      | none => simp [updateReview, hid, hrt, hcm, him, hfind, hown, hres]
      | some restaurant => simp [updateReview, hid, hrt, hcm, him, hfind, hown, hres]
    rw [hupd, ← hrevid]
    exact hsave
  · intro hf
    simp [applyReviewUpdate, hf]
  · intro c hc hcne
    by_cases hf : falsyStr req.comment = true
    · exact ⟨c, by simp [applyReviewUpdate, hf, hc], hcne⟩
    · obtain ⟨t, ht, htne⟩ := falsyStr_eq_false req.comment (by simpa using hf)
      have hft : falsyStr (some t) = false := by simp [falsyStr, htne]
      exact ⟨t, by simp [applyReviewUpdate, ht, hft], htne⟩
  · intro himg
    simp [applyReviewUpdate, himg]

/-- Claim C8: a successful `DELETE /restaurants/:id` of an existing
restaurant deletes the restaurant, then all its Reviews, then all its
Likes, in that order, before reporting success, and a subsequent
`GET /reviews/:restaurantId` returns the empty set. -/
theorem c8_cascade_delete (s : CoreState) (id : String) (rest : Restaurant)
    (hrest : s.restaurants.find? (fun r => r.id == id) = some rest) :
    (deleteRestaurant s id).2.2 = .okMsg "Restaurant deleted successfully" ∧
    (deleteRestaurant s id).2.1 =
      [.deleteRestaurantDoc id, .deleteReviewsByRestaurant id,
        .deleteLikesByRestaurant id] ∧
    getReviews (deleteRestaurant s id).1 id = [] ∧
    (deleteRestaurant s id).1.likes.filter
      (fun l => l.restaurantId == id) = [] := by
  refine ⟨?_, ?_, ?_, ?_⟩
  · simp [deleteRestaurant, hrest]
  · simp [deleteRestaurant, hrest]
  · simp only [deleteRestaurant, hrest, getReviews]
    have hnil : ((s.reviews.filter (fun r => !(r.restaurantId == id))).filter
        (fun r => r.restaurantId == id)) = [] := by
      rw [List.filter_filter]
      apply List.filter_eq_nil_iff.mpr
      intro a ha
      by_cases hb : (a.restaurantId == id) = true
      · simp [hb]
      · simp [hb]
    rw [hnil]
    simp
  · simp only [deleteRestaurant, hrest]
    rw [List.filter_filter]
    apply List.filter_eq_nil_iff.mpr
    intro a ha
    by_cases hb : (a.restaurantId == id) = true
    · simp [hb]
    · simp [hb]

/-- Counterexample to C4 as stated: Bob is not the author of Alice's
review, yet his PUT with a missing rating is answered 400, not 403 — the
payload validation runs before the ownership check. -/
theorem c4_owner_guard_counterexample :
    exReview.userId ≠ exBob.userId ∧
    exState.reviews.find? (fun r => r.id == exReviewId) = some exReview ∧
    statusOf (updateReview exState exBob exReviewId ⟨none, none, .undef⟩ 7).2 = 400 ∧
    (updateReview exState exBob exReviewId ⟨none, none, .undef⟩ 7).2 ≠
      CoreRes.forbidden "Not authorized to edit this review" := by
  decide

/-- Witness for C4 (amended) at a concrete state. -/
theorem c4_owner_guard_witness :
    (deleteReview exState exBob exReviewId).1 = exState ∧
    (deleteReview exState exBob exReviewId).2 =
      .forbidden "Not authorized to delete this review" ∧
    (updateReview exState exBob exReviewId ⟨some 4, some "x", .undef⟩ 7).1 = exState ∧
    (statusOf (updateReview exState exBob exReviewId ⟨some 4, some "x", .undef⟩ 7).2 = 400 ∨
      (updateReview exState exBob exReviewId ⟨some 4, some "x", .undef⟩ 7).2 =
        .forbidden "Not authorized to edit this review") ∧
    (validateRating (some 4) = true →
      validateReviewComment (some "x") = true →
      validateImageFile JsOpt.undef = true →
      (updateReview exState exBob exReviewId ⟨some 4, some "x", .undef⟩ 7).2 =
        .forbidden "Not authorized to edit this review") :=
  c4_owner_guard exState exBob exReviewId ⟨some 4, some "x", .undef⟩ 7 exReview
    (by decide) (by decide) (by decide)

/-- Witness for C5 at a concrete state. -/
theorem c5_duplicate_key_recovered_witness :
    postLike exFreshState exAlice (some exRestaurantId) exLikeId 3 (.error 11000) =
      (exFreshState, .okLiked "Restaurant already liked" true) ∧
    statusOf (postLike exFreshState exAlice (some exRestaurantId) exLikeId 3
      (.error 11000)).2 = 200 :=
  c5_duplicate_key_recovered exFreshState exAlice exRestaurantId exRestaurant
    exLikeId 3 (by decide) (by decide) (by decide)

/-- Witness for C8 at a concrete state. -/
theorem c8_cascade_delete_witness :
    (deleteRestaurant exState exRestaurantId).2.2 =
      .okMsg "Restaurant deleted successfully" ∧
    (deleteRestaurant exState exRestaurantId).2.1 =
      [.deleteRestaurantDoc exRestaurantId,
        .deleteReviewsByRestaurant exRestaurantId,
        .deleteLikesByRestaurant exRestaurantId] ∧
    getReviews (deleteRestaurant exState exRestaurantId).1 exRestaurantId = [] ∧
    (deleteRestaurant exState exRestaurantId).1.likes.filter
      (fun l => l.restaurantId == exRestaurantId) = [] :=
  c8_cascade_delete exState exRestaurantId ⟨exRestaurantId, "Chez X", 5, 1⟩
    (by decide)

/-- Witness for C10 at a concrete state: Alice updates her review with an
absent comment and a null image. -/
theorem c10_update_comment_frame_witness :
    (updateReview exState exAlice exReviewId ⟨some 4, none, .null⟩ 9).1.reviews.find?
        (fun r => r.id == exReviewId) =
      some (applyReviewUpdate exReview ⟨some 4, none, .null⟩ 9) ∧
    (falsyStr (none : Option String) = true →
      (applyReviewUpdate exReview ⟨some 4, none, .null⟩ 9).comment = exReview.comment) ∧
    (∀ c, exReview.comment = some c → c ≠ "" →
      ∃ c', (applyReviewUpdate exReview ⟨some 4, none, .null⟩ 9).comment = some c' ∧
        c' ≠ "") ∧
    ((⟨some 4, none, .null⟩ : UpdateReviewReq).image = JsOpt.null →
      (applyReviewUpdate exReview ⟨some 4, none, .null⟩ 9).image = none) :=
  c10_update_comment_frame exState exAlice exReviewId ⟨some 4, none, .null⟩ 9
    exReview (by decide) (by decide) (by decide) (by decide) (by decide)
    (by decide)


theorem msgRecencyLe_trans (a b c : Message) (h1 : msgRecencyLe a b = true)
    (h2 : msgRecencyLe b c = true) : msgRecencyLe a c = true := by
  simp only [msgRecencyLe, decide_eq_true_eq] at h1 h2 ⊢
  omega

theorem msgRecencyLe_total (a b : Message) :
    (msgRecencyLe a b || msgRecencyLe b a) = true := by
  simp only [msgRecencyLe, Bool.or_eq_true, decide_eq_true_eq]
  omega

/-- Claim C6: when a connection joins a room, the server replies to that
socket with the room's most recent at-most-50 persisted messages ordered
oldest-to-newest: the history is ascending in `createdAt`, has length
`min 50 (count of the room's messages)`, contains only that room's
messages, and together with the dropped messages is a permutation of the
room's messages in which every dropped message is no newer than every
delivered one. -/
theorem c6_join_room_history (st : ChatState) (sock room : String) :
    (joinRoom st sock room).2 =
      [(sock, ChatEvent.messageHistory (joinRoomHistory st.messages room))] ∧
    (joinRoomHistory st.messages room).Pairwise
      (fun a b => a.createdAt ≤ b.createdAt) ∧
    (joinRoomHistory st.messages room).length =
      min 50 (st.messages.filter (fun m => m.room == room)).length ∧
    (∀ m ∈ joinRoomHistory st.messages room, m.room = room) ∧
    ∃ dropped : List Message,
      ((joinRoomHistory st.messages room).reverse ++ dropped).Perm
        (st.messages.filter (fun m => m.room == room)) ∧
      ∀ d ∈ dropped, ∀ m ∈ joinRoomHistory st.messages room,
        d.createdAt ≤ m.createdAt := by
  have hsorted := List.sorted_mergeSort msgRecencyLe_trans msgRecencyLe_total
    (st.messages.filter (fun m => m.room == room))
  have hperm := List.mergeSort_perm
    (st.messages.filter (fun m => m.room == room)) msgRecencyLe
  refine ⟨rfl, ?_, ?_, ?_, ?_⟩
  · rw [joinRoomHistory, List.pairwise_reverse]
    have htake := hsorted.sublist (List.take_sublist 50 _)
    exact htake.imp (fun hab => by simpa [msgRecencyLe] using hab)
  · rw [joinRoomHistory]
    simp [hperm.length_eq]
  · intro m hm
    rw [joinRoomHistory, List.mem_reverse] at hm
    have hmF := hperm.mem_iff.mp (List.Sublist.mem hm (List.take_sublist 50 _))
    simpa using (List.mem_filter.mp hmF).2
  · refine ⟨((st.messages.filter
      (fun m => m.room == room)).mergeSort msgRecencyLe).drop 50, ?_, ?_⟩
    · rw [joinRoomHistory, List.reverse_reverse, List.take_append_drop]
      exact hperm
    · intro dm hd m hm
      rw [joinRoomHistory, List.mem_reverse] at hm
      have hsplit := hsorted
      rw [← List.take_append_drop 50 ((st.messages.filter
        (fun m => m.room == room)).mergeSort msgRecencyLe)] at hsplit
      have := (List.pairwise_append.mp hsplit).2.2 m hm dm hd
      simpa [msgRecencyLe] using this

/-- Claim C7 (amended): a `send-message` with any of userId/userName/message
missing emits a single error event to the sender only, persisting and
broadcasting nothing; when all three are present but the message text is
whitespace-only, the schema's required-after-trim validation makes the
save throw and the server again emits an error ("Failed to send message")
to the sender only, persisting and broadcasting nothing; otherwise the
server persists exactly one new message (room defaulting to "general",
text trimmed, with its assigned id and timestamp) and emits it as
`receive-message` to exactly the sockets joined to that room, the sender
included when joined. -/
theorem c7_send_message (st : ChatState) (sender : String)
    (d : SendMessageData) (now : Nat) :
    if (falsyStr d.userId || falsyStr d.userName || falsyStr d.message) = true then
      sendMessage st sender d now =
        (st, [(sender, ChatEvent.errorEv "Missing required fields")])
    else if (jsTrim (d.message.getD "") == "") = true then
      sendMessage st sender d now =
        (st, [(sender, ChatEvent.errorEv "Failed to send message")])
    else
      ∃ m : Message,
        (sendMessage st sender d now).1.messages = st.messages ++ [m] ∧
        m.id = st.nextId ∧ m.createdAt = now ∧
        m.room = d.room.getD "general" ∧
        m.userId = d.userId.getD "" ∧ m.userName = d.userName.getD "" ∧
        m.message = jsTrim (d.message.getD "") ∧
        (∀ sock, (sock, ChatEvent.receiveMessage m) ∈
            (sendMessage st sender d now).2 ↔ (sock, m.room) ∈ st.membership) ∧
        ∀ e ∈ (sendMessage st sender d now).2,
          e.2 = ChatEvent.receiveMessage m := by
  by_cases hb : (falsyStr d.userId || falsyStr d.userName || falsyStr d.message) = true
  · rw [if_pos hb]
    simp [sendMessage, hb]
  · rw [if_neg hb]
    have hb' : (falsyStr d.userId || falsyStr d.userName || falsyStr d.message)
        = false := by simpa using hb
    by_cases hm : (jsTrim (d.message.getD "") == "") = true
    · rw [if_pos hm]
      simp [sendMessage, hb', hm]
    · rw [if_neg hm]
      have hm' : (jsTrim (d.message.getD "") == "") = false := by simpa using hm
      have heq : sendMessage st sender d now =
          ({ st with
              messages := st.messages ++
                [⟨st.nextId, d.userId.getD "", d.userName.getD "",
                  jsTrim (d.message.getD ""), d.room.getD "general", now⟩],
              nextId := st.nextId + 1 },
            (socketsInRoom st (d.room.getD "general")).map
              (fun sock => (sock, ChatEvent.receiveMessage
                ⟨st.nextId, d.userId.getD "", d.userName.getD "",
                  jsTrim (d.message.getD ""), d.room.getD "general", now⟩))) := by
        simp [sendMessage, hb', hm']
      refine ⟨⟨st.nextId, d.userId.getD "", d.userName.getD "",
        jsTrim (d.message.getD ""), d.room.getD "general", now⟩,
        ?_, rfl, rfl, rfl, rfl, rfl, rfl, ?_, ?_⟩
      · rw [heq]
      · intro sock
        rw [heq]
        constructor
        · intro hmem
          simp only [List.mem_map] at hmem
          obtain ⟨a, ha, hae⟩ := hmem
          have ha' : a = sock := by
            have := congrArg Prod.fst hae
            simpa using this
          subst ha'
          simp only [socketsInRoom, List.mem_map, List.mem_filter] at ha
          obtain ⟨p, ⟨hpmem, hproom⟩, hp1⟩ := ha
          have hp : p = (a, d.room.getD "general") := by
            obtain ⟨p1, p2⟩ := p
            simp only at hp1
            have hp2 : p2 = d.room.getD "general" := by simpa using hproom
            simp [hp1, hp2]
          rw [hp] at hpmem
          exact hpmem
        · intro hmem
          simp only [List.mem_map]
          refine ⟨sock, ?_, rfl⟩
          simp only [socketsInRoom, List.mem_map, List.mem_filter]
          exact ⟨(sock, d.room.getD "general"), ⟨hmem, by simp⟩, rfl⟩
      · intro e he
        rw [heq] at he
        simp only [List.mem_map] at he
        obtain ⟨a, _, hae⟩ := he
        rw [← hae]

/-- Counterexample to C7 as stated: all three of userId, userName, message
are present (a whitespace-only message is truthy), yet the schema's
required-after-trim validation makes `save()` throw — the server emits
"Failed to send message" to the sender and neither persists nor
broadcasts anything. -/
theorem c7_send_message_counterexample :
    (falsyStr (some "u1") || falsyStr (some "Ana") || falsyStr (some " ")) =
      false ∧
    sendMessage exChatState "sockA" ⟨some "u1", some "Ana", some " ", none⟩ 9 =
      (exChatState, [("sockA", ChatEvent.errorEv "Failed to send message")]) := by
  decide

/-- Claim C9 (amended): for every well-formed password-reset-request, the
`message` string of a 200 response is the same generic text whether or not
an account with that email exists, but the full observable response is not
identical across the two cases: exactly the no-account case answers the
bare `{message}` shape, while an existing account yields
`{message, success:true}` (or a 500 when the reset email fails to send),
and the old handler variant returns the reset token outright — so the
response can reveal account existence. -/
theorem c9_password_reset_generic (st : AuthState) (email : Option String)
    (code token : String) (now : Nat) (ok : Bool)
    (h1 : validateRequired email = true) (h2 : validateEmail email = true) :
    (ok = true →
      prrMessage (passwordResetRequest st email code token now ok).2 =
        prrGenericMsg) ∧
    ((passwordResetRequest st email code token now ok).2 =
        .okGeneric prrGenericMsg ↔
      st.users.find? (fun u => u.email == email.getD "") = none) := by
  constructor
  · intro hok
    subst hok
    cases hf : st.users.find? (fun u => u.email == email.getD "") with
    | none => simp [passwordResetRequest, h1, h2, hf, prrMessage]
    | some user => simp [passwordResetRequest, h1, h2, hf, prrMessage]
  · cases hf : st.users.find? (fun u => u.email == email.getD "") with
    | none => simp [passwordResetRequest, h1, h2, hf]
    | some user =>
      cases ok with
      | true => simp [passwordResetRequest, h1, h2, hf]
      | false => simp [passwordResetRequest, h1, h2, hf]

/-- Counterexample to C9 as stated: the same valid request yields
`{message}` when no account matches but `{message, success:true}` when one
does, and the old variant returns the reset token in the body. -/
theorem c9_counterexample :
    validateRequired (some "a@b.c") = true ∧
    validateEmail (some "a@b.c") = true ∧
    (passwordResetRequest ⟨[]⟩ (some "a@b.c") "123456" "tok9" 0 true).2 ≠
      (passwordResetRequest ⟨[⟨"u1", "a@b.c", none, none, none⟩]⟩
        (some "a@b.c") "123456" "tok9" 0 true).2 ∧
    (passwordResetRequestOld ⟨[⟨"u1", "a@b.c", none, none, none⟩]⟩
        (some "a@b.c") "tok9" 0).2 =
      .okToken "Password reset token generated" "tok9" := by
  decide

/-- Witness for C9 (amended) at a concrete state. -/
theorem c9_password_reset_generic_witness :
    (true = true →
      prrMessage (passwordResetRequest ⟨[⟨"u1", "a@b.c", none, none, none⟩]⟩
        (some "a@b.c") "123456" "tok9" 0 true).2 = prrGenericMsg) ∧
    ((passwordResetRequest ⟨[⟨"u1", "a@b.c", none, none, none⟩]⟩
        (some "a@b.c") "123456" "tok9" 0 true).2 = .okGeneric prrGenericMsg ↔
      (⟨[⟨"u1", "a@b.c", none, none, none⟩]⟩ : AuthState).users.find?
        (fun u => u.email == (some "a@b.c").getD "") = none) :=
  c9_password_reset_generic ⟨[⟨"u1", "a@b.c", none, none, none⟩]⟩
    (some "a@b.c") "123456" "tok9" 0 true (by decide) (by decide)

end Huequitas
